import Mathlib

/-!
Verification of the maskr.io Penpot plugin processing core.

Shallow embedding of the retry utility (src/utils/retry.ts), the timeout and
cleanup utilities (src/utils/cleanup.ts), the error classifier
(src/utils/errors.ts), the API service token gate (src/services/ApiService.ts),
the background-removal pipeline (src/services/BackgroundRemovalService.ts) and
the processing store (src/stores/processingStore.ts).

JavaScript numbers are modelled as rationals, strings as Lean strings,
errors as an inductive type mirroring the classes the code tests with
`instanceof`, and the abort signal as a boolean flag (no claim exercises a
signal that flips in the middle of a single primitive operation).
-/

namespace Maskr

/-! ## String helpers: JS `String.prototype.includes` and `toLowerCase` -/

/-- Does the character list `pat` occur at the start of `l`? -/
def segStart : List Char → List Char → Bool
  | [], _ => true
  | _ :: _, [] => false
  | p :: ps, a :: rest => p == a && segStart ps rest

/-- Does the character list `pat` occur anywhere inside `l`? -/
def segIn (pat : List Char) : List Char → Bool
  | [] => pat.isEmpty
  | a :: rest => segStart pat (a :: rest) || segIn pat rest

/-- JS `s.includes(pat)`. -/
def strIncludes (s pat : String) : Bool :=
  segIn pat.toList s.toList

/-- JS `s.toLowerCase()` (ASCII, which is all the code compares). -/
def jsToLower (s : String) : String :=
  ⟨s.data.map Char.toLower⟩

/-! ## Error model

An inductive type covering every error class the code distinguishes with
`instanceof` tests, plus a constructor for non-`Error` thrown values.
`TypeError`, `DOMException`, `ApiError`, `TimeoutError`,
`ImageProcessingError` are all `instanceof Error` in the host environment. -/

inductive JsError where
  /-- `DOMException` with its `name` and `message` (abort errors are
  `DOMException('Aborted', 'AbortError')`). -/
  | domException (name message : String)
  /-- `TypeError` (what `fetch` throws on network failure). -/
  | typeError (message : String)
  /-- `ApiError` from src/services/ApiService.ts: message, HTTP status, code. -/
  | apiError (message : String) (status : Nat) (code : String)
  /-- `TimeoutError` from src/utils/cleanup.ts. -/
  | timeoutError (message : String)
  /-- `ImageProcessingError` from src/services/ImageProcessingService.ts. -/
  | imageProcessingError (message : String)
  /-- Any other `Error` instance. -/
  | genericError (message : String)
  /-- A thrown value that is not an `Error` instance at all. -/
  | nonError
  deriving DecidableEq, Repr

namespace JsError

/-- The abort error every cancellation site throws:
`new DOMException('Aborted', 'AbortError')`. -/
def abortError : JsError := .domException "AbortError" "Aborted"

/-- `error.message` for `Error` instances; `none` for non-errors. -/
def message? : JsError → Option String
  | domException _ m => some m
  | typeError m => some m
  | apiError m _ _ => some m
  | timeoutError m => some m
  | imageProcessingError m => some m
  | genericError m => some m
  | nonError => none

end JsError

/-- The `TimeoutError` constructed by `withTimeout` in src/utils/cleanup.ts:
`new TimeoutError(\x60Operation timed out after ${timeoutMs}ms\x60)`. -/
def withTimeoutError (timeoutMs : Nat) : JsError :=
  .timeoutError ("Operation timed out after " ++ toString timeoutMs ++ "ms")

/-! ## Default retryability predicate (src/utils/retry.ts, `isRetryableError`) -/

/-- The message-pattern chain of `isRetryableError` that applies to any
`error instanceof Error` (the checks on `error.message.toLowerCase()`). -/
def retryableMessageChain (message : String) : Bool :=
  let m := jsToLower message
  if strIncludes m "network" || strIncludes m "connection" then true
  else if strIncludes m "401" || strIncludes m "unauthorized" then false
  else if strIncludes m "400" || strIncludes m "403" || strIncludes m "404" then false
  else if strIncludes m "500" || strIncludes m "502" || strIncludes m "503"
       || strIncludes m "504" then true
  else if strIncludes m "timeout" then true
  else false

/-- `isRetryableError` from src/utils/retry.ts.  The `instanceof DOMException`
check with name `AbortError` comes first; a `TypeError` whose message contains
`fetch` is retryable; every remaining `Error` instance goes through the
lower-cased message chain; non-`Error` values are not retryable. -/
def isRetryableError : JsError → Bool
  | .domException name message =>
      if name == "AbortError" then false
      else retryableMessageChain message
  | .typeError message =>
      if strIncludes message "fetch" then true
      else retryableMessageChain message
  | .apiError message _ _ => retryableMessageChain message
  | .timeoutError message => retryableMessageChain message
  | .imageProcessingError message => retryableMessageChain message
  | .genericError message => retryableMessageChain message
  | .nonError => false

/-- Abbreviation: does the lower-cased message contain the pattern? -/
def lowIncludes (message pat : String) : Bool :=
  strIncludes (jsToLower message) pat

/-! ## Error classifier (src/utils/errors.ts, `mapErrorToDetails`) -/

/-- The application-wide error codes (`ErrorCode` in src/utils/errors.ts). -/
inductive ErrorCode where
  | UNAUTHENTICATED
  | SESSION_EXPIRED
  | INSUFFICIENT_CREDITS
  | NETWORK_ERROR
  | TIMEOUT
  | PROCESSING_FAILED
  | EXPORT_FAILED
  | CANCELLED
  | UNKNOWN
  deriving DecidableEq, Repr

/-- `ErrorDetails` as returned by `mapErrorToDetails`. -/
structure ErrorDetails where
  code : ErrorCode
  userMessage : String
  recoverable : Bool
  deriving DecidableEq, Repr

/-- The generic-`Error` fallthrough branch of `mapErrorToDetails` (message
checked without lower-casing there, per the source). -/
def mapGenericError (message : String) : ErrorDetails :=
  if strIncludes message "network" || strIncludes message "fetch" then
    { code := .NETWORK_ERROR
      userMessage := "Network error. Please check your connection and try again."
      recoverable := true }
  else
    { code := .UNKNOWN, userMessage := message, recoverable := true }

/-- `mapErrorToDetails` from src/utils/errors.ts.  Branch order follows the
source: abort `DOMException`, then `ApiError` (status 401 / 402 / 0 /
otherwise), then `TimeoutError`, then `ImageProcessingError`, then generic
`Error`, then the non-`Error` fallback. -/
def mapErrorToDetails : JsError → ErrorDetails
  | .domException name message =>
      if name == "AbortError" then
        { code := .CANCELLED, userMessage := "Operation was cancelled"
          recoverable := true }
      else mapGenericError message
  | .apiError message status _ =>
      if status == 401 then
        { code := .SESSION_EXPIRED
          userMessage := "Your session has expired. Please sign in again."
          recoverable := true }
      else if status == 402 then
        { code := .INSUFFICIENT_CREDITS
          userMessage := "Insufficient credits. Please upgrade your plan."
          recoverable := true }
      else if status == 0 then
        { code := .NETWORK_ERROR
          userMessage := "Network error. Please check your connection and try again."
          recoverable := true }
      else
        { code := .PROCESSING_FAILED, userMessage := message, recoverable := true }
  | .timeoutError _ =>
      { code := .TIMEOUT
        userMessage := "The operation timed out. Please try again."
        recoverable := true }
  | .imageProcessingError _ =>
      { code := .PROCESSING_FAILED
        userMessage := "Failed to process image. Please try again."
        recoverable := true }
  | .typeError message => mapGenericError message
  | .genericError message => mapGenericError message
  | .nonError =>
      { code := .UNKNOWN
        userMessage := "An unexpected error occurred. Please try again."
        recoverable := true }

/-- `isRecoverableError` from src/utils/errors.ts. -/
def isRecoverableError (e : JsError) : Bool :=
  (mapErrorToDetails e).recoverable

/-! ## Backoff delay (src/utils/retry.ts, `calculateDelay`) -/

/-- `calculateDelay` from src/utils/retry.ts.  `jitterFactor` stands for the
sampled `0.75 + Math.random() * 0.5`; it is only consulted when `jitter` is
true, where the delay is multiplied by it and rounded (`Math.round`, which is
`round` on rationals: half-up toward positive infinity). -/
def calculateDelay (attempt : Nat) (baseDelay maxDelay multiplier : ℚ)
    (jitter : Bool) (jitterFactor : ℚ) : ℚ :=
  let delay := baseDelay * multiplier ^ (attempt - 1)
  let delay := min delay maxDelay
  if jitter then ((round (delay * jitterFactor) : ℤ) : ℚ) else delay

/-! ## Retry executor (src/utils/retry.ts, `withRetry`)

The operation is modelled as a function of its call index (0-based), so a
single model covers operations that fail some number of times and then
succeed.  The abort signal is a constant boolean, and the sampled jitter
factor for the wait after attempt `k` is `rand k`.  `onRetry` invocations and
the waits are recorded in the returned trace instead of being side effects. -/

/-- `RetryOptions` of src/utils/retry.ts with the source's defaults.
`isRetryable` defaults to `isRetryableError`; `aborted` stands for
`signal?.aborted`; `rand` supplies the jitter factor consumed per attempt. -/
structure RetryOptions where
  maxAttempts : Nat := 3
  baseDelay : ℚ := 1000
  maxDelay : ℚ := 30000
  multiplier : ℚ := 2
  jitter : Bool := true
  isRetryable : JsError → Bool := isRetryableError
  aborted : Bool := false
  rand : Nat → ℚ := fun _ => 1

/-- Observable outcome of a `withRetry` run: the settled value (`.error none`
is the unreachable fall-through `throw lastError` with `lastError` still
undefined), the number of operation invocations, the `onRetry` events as
(attempt, delay) pairs, and the waited delays. -/
structure RetryTrace (α : Type) where
  result : Except (Option JsError) α
  invocations : Nat
  retryEvents : List (Nat × ℚ)
  waits : List ℚ
  deriving Repr

/-- The `for (let attempt = 1; attempt <= maxAttempts; attempt++)` loop of
`withRetry`.  `fuel` is the number of loop iterations still permitted
(`maxAttempts + 1 - attempt`); at `fuel = 0` the loop has ended and the
function falls through to `throw lastError`.  Each iteration first checks
the abort signal, then runs the operation; on failure it rethrows when
attempts are exhausted or the error is not retryable, otherwise it computes
the delay, fires `onRetry`, waits, and continues. -/
def withRetryGo (fn : Nat → Except JsError α) (o : RetryOptions) :
    (fuel attempt calls : Nat) → Option JsError → RetryTrace α
  | 0, _, _, last => ⟨.error last, 0, [], []⟩
  | fuel + 1, attempt, calls, _ =>
    if o.aborted then ⟨.error (some JsError.abortError), 0, [], []⟩
    else
      match fn calls with
      | .ok v => ⟨.ok v, 1, [], []⟩
      | .error e =>
        if o.maxAttempts ≤ attempt then ⟨.error (some e), 1, [], []⟩
        else if !(o.isRetryable e) then ⟨.error (some e), 1, [], []⟩
        else
          let d := calculateDelay attempt o.baseDelay o.maxDelay o.multiplier
            o.jitter (o.rand attempt)
          let rest := withRetryGo fn o fuel (attempt + 1) (calls + 1) (some e)
          ⟨rest.result, rest.invocations + 1,
            (attempt, d) :: rest.retryEvents, d :: rest.waits⟩

/-- `withRetry` from src/utils/retry.ts, as a trace. -/
def withRetryRun (fn : Nat → Except JsError α) (o : RetryOptions) : RetryTrace α :=
  withRetryGo fn o o.maxAttempts 1 0 none

/-! ## Processing store (src/stores/processingStore.ts)

`Date.now()` is modelled by passing the current time to each action that
reads the clock.  The `AbortController` slot is `Option Bool`: `none` when no
controller is installed, `some aborted` otherwise. -/

/-- Status of a `ProcessingJob`. -/
inductive JobStatus where
  | pending | processing | completed | failed | cancelled
  deriving DecidableEq, Repr

/-- The spec's terminal statuses. -/
def JobStatus.isTerminal : JobStatus → Bool
  | .completed => true
  | .failed => true
  | .cancelled => true
  | _ => false

/-- `ProcessingJob` from src/stores/processingStore.ts. -/
structure Job where
  id : String
  name : String
  status : JobStatus
  progress : ℚ
  stage : String
  error : Option String := none
  startedAt : Option Nat := none
  completedAt : Option Nat := none
  deriving DecidableEq, Repr

/-- `ProcessingHistoryItem` from src/stores/processingStore.ts. -/
structure HistoryItem where
  id : String
  name : String
  status : JobStatus
  duration : ℤ
  timestamp : Nat
  error : Option String := none
  deriving DecidableEq, Repr

/-- The store-level `status` ref. -/
inductive OverallStatus where
  | idle | processing | cancelled
  deriving DecidableEq, Repr

/-- The mutable state of the processing store. -/
structure StoreState where
  jobs : List Job
  history : List HistoryItem
  abortController : Option Bool
  status : OverallStatus
  deriving DecidableEq, Repr

/-- The store's initial state. -/
def initialStore : StoreState := ⟨[], [], none, .idle⟩

/-- A batch item as passed to `startBatch`. -/
structure WorkItem where
  id : String
  name : String
  deriving DecidableEq, Repr

/-- `startBatch`: creates pending jobs from the items, installs a fresh
(un-aborted) controller, and sets the overall status to `processing`. -/
def startBatch (items : List WorkItem) (s : StoreState) : StoreState :=
  { s with
    jobs := items.map fun item =>
      { id := item.id, name := item.name, status := .pending, progress := 0
        stage := "Queued" }
    abortController := some false
    status := .processing }

/-- Mutate the first element satisfying `p` (what assigning to the result of
`jobs.value.find(...)` does). -/
def updateFirst (p : α → Bool) (f : α → α) : List α → List α
  | [] => []
  | a :: rest => if p a then f a :: rest else a :: updateFirst p f rest

/-- `updateJobProgress`: promotes a pending job to processing (recording
`startedAt := now`) and sets its progress and stage. -/
def updateJobProgress (id : String) (progress : ℚ) (stage : String) (now : Nat)
    (s : StoreState) : StoreState :=
  { s with
    jobs := updateFirst (fun j => j.id == id)
      (fun j =>
        let j := if j.status == .pending then
          { j with status := .processing, startedAt := some now } else j
        { j with progress := progress, stage := stage }) s.jobs }

/-- The history entry `completeJob`/`failJob`/`cancel` unshift for job `j`
at time `now` (duration is `completedAt - (startedAt ?? completedAt)`). -/
def mkHistoryItem (j : Job) (st : JobStatus) (err : Option String) (now : Nat) :
    HistoryItem :=
  { id := j.id, name := j.name, status := st
    duration := (now : ℤ) - ((j.startedAt.getD now : Nat) : ℤ)
    timestamp := now, error := err }

/-- `completeJob`: marks the first job with the given id completed
(progress 100, stage Done) and unshifts a completed history entry. -/
def completeJob (id : String) (now : Nat) (s : StoreState) : StoreState :=
  match s.jobs.find? (fun j => j.id == id) with
  | none => s
  | some j =>
    let j2 := { j with
      status := .completed
      progress := 100
      stage := "Done"
      completedAt := some now }
    { s with
      jobs := updateFirst (fun x => x.id == id) (fun _ => j2) s.jobs
      history := mkHistoryItem j .completed none now :: s.history }

/-- `failJob`: marks the first job with the given id failed and unshifts a
failed history entry carrying the error. -/
def failJob (id : String) (error : String) (now : Nat) (s : StoreState) :
    StoreState :=
  match s.jobs.find? (fun j => j.id == id) with
  | none => s
  | some j =>
    let j2 := { j with
      status := .failed
      stage := "Failed"
      error := some error
      completedAt := some now }
    { s with
      jobs := updateFirst (fun x => x.id == id) (fun _ => j2) s.jobs
      history := mkHistoryItem j .failed (some error) now :: s.history }

/-- The `for (const job of jobs.value)` loop of `cancel`: walks the jobs in
order, cancelling every pending/processing one and unshifting one cancelled
history entry for it onto the (threaded) history. -/
def cancelLoop (now : Nat) : List Job → List HistoryItem →
    List Job × List HistoryItem
  | [], h => ([], h)
  | j :: rest, h =>
    if j.status == .pending || j.status == .processing then
      let j2 := { j with
        status := .cancelled
        stage := "Cancelled"
        completedAt := some now }
      let out := cancelLoop now rest (mkHistoryItem j .cancelled none now :: h)
      (j2 :: out.1, out.2)
    else
      let out := cancelLoop now rest h
      (j :: out.1, out.2)

/-- `cancel`: when a controller is installed, aborts it, sets the overall
status to cancelled, and cancels every non-terminal job (appending one
cancelled history entry each); otherwise a no-op. -/
def cancel (now : Nat) (s : StoreState) : StoreState :=
  match s.abortController with
  | none => s
  | some _ =>
    let out := cancelLoop now s.jobs s.history
    { s with abortController := some true, status := .cancelled
             jobs := out.1, history := out.2 }

/-- `finish`: clears the controller and returns the status to idle. -/
def finish (s : StoreState) : StoreState :=
  { s with abortController := none, status := .idle }

/-- `reset`: clears the jobs and controller (history is kept). -/
def reset (s : StoreState) : StoreState :=
  { s with jobs := [], abortController := none, status := .idle }

/-- `completedCount` computed ref. -/
def completedCount (s : StoreState) : Nat :=
  (s.jobs.filter (fun j => j.status == .completed)).length

/-- `currentJob` computed ref (`jobs.value.find(j => j.status === 'processing')`). -/
def currentJob (s : StoreState) : Option Job :=
  s.jobs.find? (fun j => j.status == .processing)

/-- `overallProgress` computed ref:
`Math.round(((completed + current / 100) / total) * 100)`, 0 for an empty
jobs list. -/
def overallProgress (s : StoreState) : ℤ :=
  if s.jobs.length = 0 then 0
  else
    let total : ℚ := s.jobs.length
    let completed : ℚ := completedCount s
    let current : ℚ := ((currentJob s).map Job.progress).getD 0
    round (((completed + current / 100) / total) * 100)

/-- What `cancel` does to one job. -/
def cancelJobUpdate (now : Nat) (j : Job) : Job :=
  if j.status == .pending || j.status == .processing then
    { j with status := .cancelled, stage := "Cancelled", completedAt := some now }
  else j

/-- The spec's `activeJobProgress`: the progress of the job currently in
status `processing`, 0 if there is none. -/
def specActiveJobProgress (s : StoreState) : ℚ :=
  match s.jobs.filter (fun j => j.status == .processing) with
  | [j] => j.progress
  | _ => 0

/-! Store operation traces, for the claims quantifying over operation
sequences run after `startBatch` within one batch. -/

/-- One store action (other than `startBatch`, which opens the batch), with
the clock value it observes. -/
inductive StoreOp where
  | update (id : String) (progress : ℚ) (stage : String) (now : Nat)
  | complete (id : String) (now : Nat)
  | fail (id : String) (error : String) (now : Nat)
  | cancel (now : Nat)
  | finish
  | reset
  deriving DecidableEq, Repr

/-- Apply one store action. -/
def applyOp : StoreOp → StoreState → StoreState
  | .update id progress stage now => updateJobProgress id progress stage now
  | .complete id now => completeJob id now
  | .fail id error now => failJob id error now
  | .cancel now => cancel now
  | .finish => finish
  | .reset => reset

/-- Apply a sequence of store actions, first action first. -/
def applyOps : List StoreOp → StoreState → StoreState
  | [], s => s
  | op :: rest, s => applyOps rest (applyOp op s)

/-- Number of history entries recorded for a given job id. -/
def countHist (h : List HistoryItem) (id : String) : Nat :=
  (h.filter (fun e => e.id == id)).length

/-- The store invariant the terminal-status claim rests on: job ids are
unique within the batch, and each job has exactly one history entry once
terminal and none before. -/
def StoreInv (s : StoreState) : Prop :=
  (s.jobs.map Job.id).Nodup ∧
  ∀ j ∈ s.jobs, countHist s.history j.id = (if j.status.isTerminal then 1 else 0)

/-- A store action is admissible in a state when it does not complete or
fail a job that is already terminal (the store itself does not guard
against that). -/
def okOp (s : StoreState) : StoreOp → Prop
  | .complete id _ => ∀ j ∈ s.jobs, j.id = id → j.status.isTerminal = false
  | .fail id _ _ => ∀ j ∈ s.jobs, j.id = id → j.status.isTerminal = false
  | _ => True

/-- Admissibility of a whole action sequence, state threaded through. -/
def okOps : StoreState → List StoreOp → Prop
  | _, [] => True
  | s, op :: rest => okOp s op ∧ okOps (applyOp op s) rest

/-- A job id is settled at terminal status `st`: it has exactly one history
entry, and any job carrying that id has status `st`. -/
def TermStable (id : String) (st : JobStatus) (s : StoreState) : Prop :=
  countHist s.history id = 1 ∧ ∀ j ∈ s.jobs, j.id = id → j.status = st

/-! ## API request gate (src/services/ApiService.ts) -/

/-- Raw image bytes. -/
abbrev Bytes := List Nat

/-- The inner `result` object of a remove-background response. -/
structure RemoveBgResult where
  output_url : String
  credits_used : Nat
  deriving DecidableEq, Repr

/-- `RemoveBgResponse` (src/schemas): `{ result: { output_url, credits_used } }`. -/
structure RemoveBgResponse where
  result : RemoveBgResult
  deriving DecidableEq, Repr

/-- What the inner `fetch` call does on a given request: succeed with a body,
return a non-2xx HTTP response, abort, or fail at the network level. -/
inductive FetchOutcome (T : Type) where
  | ok (body : T)
  | httpError (status : Nat) (statusText : String)
  | abort
  | networkFailure
  deriving Repr

/-- `createApiError` from src/services/ApiService.ts. -/
def createApiError (status : Nat) (statusText : String) : JsError :=
  if status == 401 then
    .apiError "Session expired. Please sign in again." 401 "SESSION_EXPIRED"
  else if status == 402 then
    .apiError "Insufficient credits. Please upgrade your plan." 402 "INSUFFICIENT_CREDITS"
  else if status == 429 then
    .apiError "Too many requests. Please try again later." 429 "RATE_LIMITED"
  else
    .apiError ("Request failed: " ++ statusText) status "REQUEST_FAILED"

/-- A settled request together with how many network requests were issued. -/
structure RequestResult (T : Type) where
  outcome : Except JsError T
  fetchCalls : Nat

/-- The private `request` helper of `createApiService`: a `null` token fails
up front with `ApiError('Not authenticated', 401, 'UNAUTHENTICATED')` before
any fetch; otherwise one fetch is issued and its outcome is translated
(non-ok responses through `createApiError`, aborts rethrown, anything else
becoming a status-0 network `ApiError`). -/
def request (token : Option String) (fetch : FetchOutcome T) : RequestResult T :=
  match token with
  | none => ⟨.error (.apiError "Not authenticated" 401 "UNAUTHENTICATED"), 0⟩
  | some _ =>
    match fetch with
    | .ok body => ⟨.ok body, 1⟩
    | .httpError status statusText => ⟨.error (createApiError status statusText), 1⟩
    | .abort => ⟨.error JsError.abortError, 1⟩
    | .networkFailure =>
        ⟨.error (.apiError "Network error. Please check your connection." 0
          "NETWORK_ERROR"), 1⟩

/-! ## Background removal pipeline (src/services/BackgroundRemovalService.ts) -/

/-- `PenpotImageInfo` as far as the pipeline reads it. -/
structure ImageInfo where
  id : String
  name : String
  deriving DecidableEq, Repr

/-- The per-item stages. -/
inductive Stage where
  | exporting | processing | downloading | applying | complete
  deriving DecidableEq, Repr

/-- `ProcessingProgress` emitted to `onProgress`. -/
structure ProcessingProgress where
  current : Nat
  total : Nat
  status : String
  imageId : String
  stage : Stage
  deriving DecidableEq, Repr

/-- `ProcessingResult` yielded per completed item. -/
structure ProcessingResult where
  imageId : String
  name : String
  resultData : Bytes
  deriving DecidableEq, Repr

/-- The pipeline's collaborators.  `removeBackground` and `downloadMask` take
their 0-based call index (so one model covers calls that fail and later
succeed) and the abort flag the pipeline passes as `signal`. -/
structure PipeEnv where
  exportImage : String → Except JsError Bytes
  removeBackground : Nat → Bytes → String → Bool → Except JsError RemoveBgResponse
  downloadMask : Nat → String → Bool → Except JsError Bytes
  applyMaskToImage : Bytes → Bytes → Except JsError Bytes

/-- Everything observable about one `process` run: the results yielded (in
order), the terminating error if any, the progress events, and how many
times each remote collaborator was invoked. -/
structure PipeOutcome where
  results : List ProcessingResult
  error : Option JsError
  events : List ProcessingProgress
  rbCalls : Nat
  dmCalls : Nat
  deriving Repr

/-- The per-item loop of `BackgroundRemovalService.process`: for each image,
check the signal, report `exporting` and export, check the signal, report
`processing` and call `api.removeBackground(imageData, name + '.png', signal)`,
check the signal, report `downloading` and call
`api.downloadMask(url, signal)`, check the signal, report `applying` and
apply the mask locally, report `complete`, and yield
`{imageId, name + ' - No BG', resultData}`.  The first error ends the run;
already-yielded results are kept. -/
def processGo (env : PipeEnv) (aborted : Bool) (total : Nat) :
    List ImageInfo → Nat → Nat → Nat → PipeOutcome
  | [], _, rb, dm => ⟨[], none, [], rb, dm⟩
  | image :: rest, i, rb, dm =>
    if aborted then ⟨[], some JsError.abortError, [], rb, dm⟩
    else
      let ev1 : ProcessingProgress :=
        ⟨i, total, "Exporting " ++ image.name ++ "...", image.id, .exporting⟩
      match env.exportImage image.id with
      | .error e => ⟨[], some e, [ev1], rb, dm⟩
      | .ok imageData =>
        if aborted then ⟨[], some JsError.abortError, [ev1], rb, dm⟩
        else
          let ev2 : ProcessingProgress :=
            ⟨i, total, "Processing " ++ image.name ++ "...", image.id, .processing⟩
          match env.removeBackground rb imageData (image.name ++ ".png") aborted with
          | .error e => ⟨[], some e, [ev1, ev2], rb + 1, dm⟩
          | .ok response =>
            if aborted then ⟨[], some JsError.abortError, [ev1, ev2], rb + 1, dm⟩
            else
              let ev3 : ProcessingProgress :=
                ⟨i, total, "Downloading mask...", image.id, .downloading⟩
              match env.downloadMask dm response.result.output_url aborted with
              | .error e => ⟨[], some e, [ev1, ev2, ev3], rb + 1, dm + 1⟩
              | .ok maskData =>
                if aborted then
                  ⟨[], some JsError.abortError, [ev1, ev2, ev3], rb + 1, dm + 1⟩
                else
                  let ev4 : ProcessingProgress :=
                    ⟨i, total, "Applying mask...", image.id, .applying⟩
                  match env.applyMaskToImage imageData maskData with
                  | .error e => ⟨[], some e, [ev1, ev2, ev3, ev4], rb + 1, dm + 1⟩
                  | .ok resultData =>
                    let ev5 : ProcessingProgress :=
                      ⟨i + 1, total, "Completed " ++ image.name, image.id, .complete⟩
                    let res : ProcessingResult :=
                      ⟨image.id, image.name ++ " - No BG", resultData⟩
                    let out := processGo env aborted total rest (i + 1) (rb + 1) (dm + 1)
                    ⟨res :: out.results, out.error,
                      ev1 :: ev2 :: ev3 :: ev4 :: ev5 :: out.events,
                      out.rbCalls, out.dmCalls⟩

/-- `BackgroundRemovalService.process` over a whole batch. -/
def processRun (env : PipeEnv) (images : List ImageInfo) (aborted : Bool) :
    PipeOutcome :=
  processGo env aborted images.length images 0 0 0

/-- A retryable remote failure, as in the retry unit tests. -/
def netError : JsError := .genericError "Network error"

/-- A pipeline environment whose `removeBackground` fails on its first call
with a retryable network error and succeeds afterwards; everything else
succeeds. -/
def failOnceEnv : PipeEnv :=
  { exportImage := fun _ => .ok [1, 2, 3]
    removeBackground := fun rb _ _ _ =>
      if rb == 0 then .error netError
      else .ok ⟨⟨"http://x/mask.png", 1⟩⟩
    downloadMask := fun _ _ _ => .ok [9]
    applyMaskToImage := fun a _ => .ok a }

/-! ## Cleanup registry (src/utils/cleanup.ts, `createCleanupRegistry`)

The JS array used as a stack is represented most-recent-first: `register`
(a push onto the array's end) conses onto the head, and the `while`/`pop`
loop of `cleanup` walks the list from the head.  A registered function is a
label paired with whether it throws; the `try`/`catch` around each call only
logs, so the loop continues regardless, which the model reflects by always
recording the invocation and recursing. -/

/-- A cleanup function: an observable label and whether calling it throws. -/
structure CleanupFn (α : Type) where
  label : α
  throws : Bool
  deriving DecidableEq, Repr

/-- The registry's state: registered functions, most recently registered
first. -/
structure CleanupRegistry (α : Type) where
  fns : List (CleanupFn α)
  deriving DecidableEq, Repr

/-- A fresh registry. -/
def CleanupRegistry.empty : CleanupRegistry α := ⟨[]⟩

/-- `register(fn)`. -/
def CleanupRegistry.register (fn : CleanupFn α) (r : CleanupRegistry α) :
    CleanupRegistry α :=
  ⟨fn :: r.fns⟩

/-- `size()`. -/
def CleanupRegistry.size (r : CleanupRegistry α) : Nat :=
  r.fns.length

/-- The `while (cleanupFns.length > 0)` loop of `cleanup()`: pop the most
recent entry, invoke it (exceptions are caught and only logged), repeat.
Returns the invocation order. -/
def cleanupInvoke : List (CleanupFn α) → List α
  | [] => []
  | fn :: rest => fn.label :: cleanupInvoke rest

/-- `cleanup()`: the invocations it performs and the registry it leaves. -/
def CleanupRegistry.cleanup (r : CleanupRegistry α) :
    List α × CleanupRegistry α :=
  (cleanupInvoke r.fns, ⟨[]⟩)

/-- Register a whole list of functions in order (first registered first). -/
def registerAll (fns : List (CleanupFn α)) (r : CleanupRegistry α) :
    CleanupRegistry α :=
  fns.foldl (fun s fn => s.register fn) r

end Maskr

namespace Maskr

/-! ## Helper lemmas -/

/-- `find?` returns the head of the filtered list. -/
theorem find?_eq_head?_filter (p : α → Bool) (l : List α) :
    l.find? p = (l.filter p).head? := by
  induction l with
  | nil => rfl
  | cons a t ih =>
    cases h : p a
    · rw [List.find?_cons_of_neg _ (by simp [h]),
        List.filter_cons_of_neg (by simp [h]), ih]
    · rw [List.find?_cons_of_pos _ h, List.filter_cons_of_pos h, List.head?_cons]

/-! ## Claim theorems -/

/-- C10: `mapErrorToDetails` marks every error recoverable, so
`isRecoverableError` returns true for every input, whatever its class
(including `ProcessingFailed`, `NetworkError`, `Timeout`, `Unknown` and
non-`Error` values). -/
theorem mapErrorToDetails_always_recoverable (e : JsError) :
    (mapErrorToDetails e).recoverable = true ∧ isRecoverableError e = true := by
  have h : (mapErrorToDetails e).recoverable = true := by
    cases e <;> simp only [mapErrorToDetails, mapGenericError] <;> split_ifs <;> rfl
  exact ⟨h, by simpa [isRecoverableError] using h⟩

/-- C4: with jitter disabled the delay before attempt `k+1` (for `k ≥ 1`) is
exactly `min(baseDelay * multiplier^(k-1), maxDelay)`, for every base delay,
cap and multiplier (and whatever jitter factor was sampled, since it is not
consulted). -/
theorem calculateDelay_no_jitter (k : Nat) (baseDelay maxDelay multiplier jf : ℚ)
    (_hk : 1 ≤ k) :
    calculateDelay k baseDelay maxDelay multiplier false jf =
      min (baseDelay * multiplier ^ (k - 1)) maxDelay := by
  simp [calculateDelay]

/-- Witness for `calculateDelay_no_jitter` at `k = 3`. -/
theorem calculateDelay_no_jitter_witness :
    (1 ≤ 3) ∧ calculateDelay 3 1 30000 2 false 1 = min ((1 : ℚ) * 2 ^ (3 - 1)) 30000 :=
  ⟨by norm_num, calculateDelay_no_jitter 3 1 30000 2 1 (by norm_num)⟩

/-- `registerAll` stacks the registrations most-recent-first. -/
theorem registerAll_fns (fns : List (CleanupFn α)) (r : CleanupRegistry α) :
    (registerAll fns r).fns = fns.reverse ++ r.fns := by
  induction fns generalizing r with
  | nil => simp [registerAll]
  | cons f rest ih =>
    simp [registerAll] at ih ⊢
    rw [ih]
    simp [CleanupRegistry.register]

/-- `cleanupInvoke` invokes exactly the stacked functions, top first. -/
theorem cleanupInvoke_eq_map (l : List (CleanupFn α)) :
    cleanupInvoke l = l.map CleanupFn.label := by
  induction l with
  | nil => rfl
  | cons f rest ih => simp [cleanupInvoke, ih]

/-- C8: after any sequence of `register` calls, `cleanup()` invokes every
registered function exactly once in reverse registration order — whatever the
registered functions' throwing behaviour, since each call is wrapped in a
`try`/`catch` that only logs — and the registry is left empty (`size() = 0`).
-/
theorem cleanupRegistry_lifo (regs : List (CleanupFn α)) :
    ((registerAll regs CleanupRegistry.empty).cleanup).1 =
      (regs.map CleanupFn.label).reverse ∧
    ((registerAll regs CleanupRegistry.empty).cleanup).2.size = 0 := by
  constructor
  · simp [CleanupRegistry.cleanup, cleanupInvoke_eq_map, registerAll_fns,
      CleanupRegistry.empty]
  · simp [CleanupRegistry.cleanup, CleanupRegistry.size]

/-- C5 counterexample: the `TimeoutError` produced by `withTimeout` with the
configured 30000 ms timeout is classified as a Timeout by the error
classifier, yet the default retryability predicate returns `false` for it
(its message, `Operation timed out after 30000ms`, contains neither
`timeout` nor any of the retryable digit patterns). -/
theorem withTimeout_timeout_not_retryable :
    (mapErrorToDetails (withTimeoutError 30000)).code = ErrorCode.TIMEOUT ∧
    isRetryableError (withTimeoutError 30000) = false := by
  decide

/-- C5 (amended): the default retryability policy on the lower-cased message:
abort errors are never retryable; authentication (401/unauthorized) and
client-request (400/403/404) messages are not retryable (unless an earlier
network/connection match fires first); 5xx, network/connection and
`timeout`-containing messages are retryable (barring an earlier
non-retryable match); anything matching no pattern is not retryable — but
the `TimeoutError` produced by `withTimeout` says `timed out`, not
`timeout`, so with the configured 30000 ms timeout it is *not* retryable. -/
theorem isRetryableError_policy :
    (isRetryableError JsError.abortError = false) ∧
    (∀ msg, lowIncludes msg "network" = false → lowIncludes msg "connection" = false →
      (lowIncludes msg "401" = true ∨ lowIncludes msg "unauthorized" = true) →
      isRetryableError (.genericError msg) = false) ∧
    (∀ msg, lowIncludes msg "network" = false → lowIncludes msg "connection" = false →
      lowIncludes msg "401" = false → lowIncludes msg "unauthorized" = false →
      (lowIncludes msg "400" = true ∨ lowIncludes msg "403" = true ∨
        lowIncludes msg "404" = true) →
      isRetryableError (.genericError msg) = false) ∧
    (∀ msg, lowIncludes msg "401" = false → lowIncludes msg "unauthorized" = false →
      lowIncludes msg "400" = false → lowIncludes msg "403" = false →
      lowIncludes msg "404" = false →
      (lowIncludes msg "500" = true ∨ lowIncludes msg "502" = true ∨
        lowIncludes msg "503" = true ∨ lowIncludes msg "504" = true) →
      isRetryableError (.genericError msg) = true) ∧
    (∀ msg, (lowIncludes msg "network" = true ∨ lowIncludes msg "connection" = true) →
      isRetryableError (.genericError msg) = true) ∧
    (∀ msg, lowIncludes msg "401" = false → lowIncludes msg "unauthorized" = false →
      lowIncludes msg "400" = false → lowIncludes msg "403" = false →
      lowIncludes msg "404" = false → lowIncludes msg "timeout" = true →
      isRetryableError (.genericError msg) = true) ∧
    (∀ msg, lowIncludes msg "network" = false → lowIncludes msg "connection" = false →
      lowIncludes msg "401" = false → lowIncludes msg "unauthorized" = false →
      lowIncludes msg "400" = false → lowIncludes msg "403" = false →
      lowIncludes msg "404" = false → lowIncludes msg "500" = false →
      lowIncludes msg "502" = false → lowIncludes msg "503" = false →
      lowIncludes msg "504" = false → lowIncludes msg "timeout" = false →
      isRetryableError (.genericError msg) = false) ∧
    (isRetryableError .nonError = false) ∧
    (isRetryableError (withTimeoutError 30000) = false) := by
  refine ⟨by decide, ?_, ?_, ?_, ?_, ?_, ?_, by decide, by decide⟩
  · intro msg h1 h2 h3
    rcases h3 with h | h <;>
      simp_all [isRetryableError, retryableMessageChain, lowIncludes]
  · intro msg h1 h2 h3 h4 h5
    rcases h5 with h | h | h <;>
      simp_all [isRetryableError, retryableMessageChain, lowIncludes]
  · intro msg h1 h2 h3 h4 h5 h6
    rcases h6 with h | h | h | h <;>
      simp only [isRetryableError, retryableMessageChain, lowIncludes] at * <;>
      split_ifs <;> simp_all
  · intro msg h
    rcases h with h | h <;>
      simp_all [isRetryableError, retryableMessageChain, lowIncludes]
  · intro msg h1 h2 h3 h4 h5 h6
    simp only [isRetryableError, retryableMessageChain, lowIncludes] at *
    split_ifs <;> simp_all
  · intro msg h1 h2 h3 h4 h5 h6 h7 h8 h9 h10 h11 h12
    simp_all [isRetryableError, retryableMessageChain, lowIncludes]

/-- Witness for `isRetryableError_policy`: evaluate the conditional conjuncts
at the concrete messages the unit tests use. -/
theorem isRetryableError_policy_witness :
    isRetryableError (.genericError "401 Unauthorized") = false ∧
    isRetryableError (.genericError "404 Not Found") = false ∧
    isRetryableError (.genericError "Server returned 502") = true ∧
    isRetryableError (.genericError "Network connection failed") = true ∧
    isRetryableError (.genericError "Request timeout") = true ∧
    isRetryableError (.genericError "something odd happened") = false := by
  refine ⟨?_, ?_, ?_, ?_, ?_, ?_⟩
  · exact isRetryableError_policy.2.1 "401 Unauthorized" (by decide) (by decide)
      (Or.inl (by decide))
  · exact isRetryableError_policy.2.2.1 "404 Not Found" (by decide) (by decide)
      (by decide) (by decide) (Or.inr (Or.inr (by decide)))
  · exact isRetryableError_policy.2.2.2.1 "Server returned 502" (by decide)
      (by decide) (by decide) (by decide) (by decide) (Or.inr (Or.inl (by decide)))
  · exact isRetryableError_policy.2.2.2.2.1 "Network connection failed"
      (Or.inr (by decide))
  · exact isRetryableError_policy.2.2.2.2.2.1 "Request timeout" (by decide)
      (by decide) (by decide) (by decide) (by decide) (by decide)
  · exact isRetryableError_policy.2.2.2.2.2.2.1 "something odd happened"
      (by decide) (by decide) (by decide) (by decide) (by decide) (by decide)
      (by decide) (by decide) (by decide) (by decide) (by decide) (by decide)

/-- C9: with a `null` token, `request` settles immediately with
`ApiError('Not authenticated', 401, ...)` and issues zero network requests;
the classifier maps that error to `SESSION_EXPIRED`; and since the default
predicate deems it non-retryable, running it under `withRetry` performs
exactly one invocation, no `onRetry` call and no wait. -/
theorem request_null_token (T : Type) (f : FetchOutcome T) (o : RetryOptions)
    (hA : o.aborted = false) (hR : o.isRetryable = isRetryableError)
    (hN : 1 ≤ o.maxAttempts) :
    (request none f).fetchCalls = 0 ∧
    (request none f).outcome =
      Except.error (.apiError "Not authenticated" 401 "UNAUTHENTICATED") ∧
    mapErrorToDetails (.apiError "Not authenticated" 401 "UNAUTHENTICATED") =
      ⟨.SESSION_EXPIRED, "Your session has expired. Please sign in again.", true⟩ ∧
    withRetryRun (α := T)
      (fun _ => Except.error (.apiError "Not authenticated" 401 "UNAUTHENTICATED")) o =
      ⟨Except.error (some (.apiError "Not authenticated" 401 "UNAUTHENTICATED")),
        1, [], []⟩ := by
  have hre :
      isRetryableError (.apiError "Not authenticated" 401 "UNAUTHENTICATED") = false := by
    decide
  obtain ⟨k, hk⟩ : ∃ k, o.maxAttempts = k + 1 := ⟨o.maxAttempts - 1, by omega⟩
  refine ⟨rfl, rfl, by decide, ?_⟩
  simp [withRetryRun, hk, withRetryGo, hA, hR, hre]

/-- Witness for `request_null_token` with the default retry options and a
fetch that would have succeeded. -/
theorem request_null_token_witness :
    (request (T := Bytes) none (FetchOutcome.ok [])).fetchCalls = 0 ∧
    (request (T := Bytes) none (FetchOutcome.ok [])).outcome =
      Except.error (.apiError "Not authenticated" 401 "UNAUTHENTICATED") ∧
    mapErrorToDetails (.apiError "Not authenticated" 401 "UNAUTHENTICATED") =
      ⟨.SESSION_EXPIRED, "Your session has expired. Please sign in again.", true⟩ ∧
    withRetryRun (α := Bytes)
      (fun _ => Except.error (.apiError "Not authenticated" 401 "UNAUTHENTICATED")) {} =
      ⟨Except.error (some (.apiError "Not authenticated" 401 "UNAUTHENTICATED")),
        1, [], []⟩ :=
  request_null_token Bytes (FetchOutcome.ok []) {} rfl rfl (by norm_num)

/-- The retry loop when the operation fails at every call with a retryable
error and the signal never aborts: each loop level performs one invocation,
and the error settled on is the last invocation's. -/
theorem withRetryGo_all_fail (α : Type) (errs : Nat → JsError) (o : RetryOptions)
    (hR : ∀ i, o.isRetryable (errs i) = true) (hA : o.aborted = false) :
    ∀ fuel attempt calls last, attempt + fuel = o.maxAttempts + 1 → 1 ≤ fuel →
      (withRetryGo (α := α) (fun i => Except.error (errs i)) o fuel attempt calls
          last).result = Except.error (some (errs (calls + (fuel - 1)))) ∧
      (withRetryGo (α := α) (fun i => Except.error (errs i)) o fuel attempt calls
          last).invocations = fuel := by
  intro fuel
  induction fuel with
  | zero => intro _ _ _ _ h1; omega
  | succ f ih =>
    intro attempt calls last hsum _
    by_cases hf : f = 0
    · subst hf
      have hATT : o.maxAttempts ≤ attempt := by omega
      simp [withRetryGo, hA, hATT]
    · have hlt : ¬ (o.maxAttempts ≤ attempt) := by omega
      obtain ⟨h1, h2⟩ := ih (attempt + 1) (calls + 1) (some (errs calls))
        (by omega) (by omega)
      have hidx : calls + 1 + (f - 1) = calls + (f + 1 - 1) := by omega
      rw [hidx] at h1
      simp [withRetryGo, hA, hlt, hR, h1, h2]

/-- C3: for every `N ≥ 1`, `withRetry` with `maxAttempts = N`, an un-aborted
signal, and an operation failing at every attempt with a retryable error
invokes the operation exactly `N` times and rejects with the error thrown by
the last invocation itself (no wrapper). -/
theorem withRetry_exhausts_attempts (α : Type) (N : Nat) (errs : Nat → JsError)
    (o : RetryOptions) (hN : o.maxAttempts = N) (h1 : 1 ≤ N)
    (hA : o.aborted = false) (hR : ∀ i, o.isRetryable (errs i) = true) :
    (withRetryRun (α := α) (fun i => Except.error (errs i)) o).invocations = N ∧
    (withRetryRun (α := α) (fun i => Except.error (errs i)) o).result =
      Except.error (some (errs (N - 1))) := by
  obtain ⟨h2, h3⟩ := withRetryGo_all_fail α errs o hR hA o.maxAttempts 1 0 none
    (by omega) (by omega)
  rw [hN] at h2 h3
  simp only [Nat.zero_add] at h2
  exact ⟨by simpa [withRetryRun, hN] using h3,
    by simpa [withRetryRun, hN] using h2⟩

/-- Witness for `withRetry_exhausts_attempts`: two attempts, both failing
with a network error, give two invocations and that error. -/
theorem withRetry_exhausts_attempts_witness :
    (withRetryRun (α := Nat) (fun _ => Except.error (.genericError "Network error"))
      { maxAttempts := 2, baseDelay := 1, jitter := false }).invocations = 2 ∧
    (withRetryRun (α := Nat) (fun _ => Except.error (.genericError "Network error"))
      { maxAttempts := 2, baseDelay := 1, jitter := false }).result =
      Except.error (some (.genericError "Network error")) :=
  withRetry_exhausts_attempts Nat 2 (fun _ => .genericError "Network error")
    { maxAttempts := 2, baseDelay := 1, jitter := false } rfl (by norm_num) rfl
    (by
      intro i
      show isRetryableError (.genericError "Network error") = true
      decide)

/-- The cancel loop cancels exactly the non-terminal jobs and prepends their
history entries newest-first. -/
theorem cancelLoop_spec (now : Nat) (l : List Job) (h : List HistoryItem) :
    cancelLoop now l h =
      (l.map (cancelJobUpdate now),
       ((l.filter (fun j => j.status == .pending || j.status == .processing)).map
          (fun j => mkHistoryItem j .cancelled none now)).reverse ++ h) := by
  induction l generalizing h with
  | nil => simp [cancelLoop]
  | cons j rest ih =>
    by_cases hc : (j.status == .pending || j.status == .processing) = true
    · simp [cancelLoop, hc, ih, cancelJobUpdate, List.filter_cons]
    · simp [cancelLoop, hc, ih, cancelJobUpdate, List.filter_cons]

/-- C6: `cancel()` on a state with an installed controller aborts the shared
token, rewrites every pending/processing job to `cancelled` (stage
`Cancelled`, `completedAt` stamped) while leaving terminal jobs untouched,
and prepends exactly one cancelled history entry per affected job, newest
first. -/
theorem cancel_cancels_batch (s : StoreState) (b : Bool) (now : Nat)
    (hc : s.abortController = some b) :
    (cancel now s).abortController = some true ∧
    (cancel now s).jobs = s.jobs.map (cancelJobUpdate now) ∧
    (cancel now s).history =
      ((s.jobs.filter (fun j => j.status == .pending || j.status == .processing)).map
        (fun j => mkHistoryItem j .cancelled none now)).reverse ++ s.history := by
  simp [cancel, hc, cancelLoop_spec]

/-- Witness for `cancel_cancels_batch` on a freshly started two-item batch. -/
theorem cancel_cancels_batch_witness :
    (cancel 5 (startBatch [⟨"1", "A"⟩, ⟨"2", "B"⟩] initialStore)).abortController
        = some true ∧
    (cancel 5 (startBatch [⟨"1", "A"⟩, ⟨"2", "B"⟩] initialStore)).jobs =
      (startBatch [⟨"1", "A"⟩, ⟨"2", "B"⟩] initialStore).jobs.map (cancelJobUpdate 5) ∧
    (cancel 5 (startBatch [⟨"1", "A"⟩, ⟨"2", "B"⟩] initialStore)).history =
      (((startBatch [⟨"1", "A"⟩, ⟨"2", "B"⟩] initialStore).jobs.filter
          (fun j => j.status == .pending || j.status == .processing)).map
        (fun j => mkHistoryItem j .cancelled none 5)).reverse ++
        (startBatch [⟨"1", "A"⟩, ⟨"2", "B"⟩] initialStore).history :=
  cancel_cancels_batch (startBatch [⟨"1", "A"⟩, ⟨"2", "B"⟩] initialStore) false 5 rfl

/-- C7: for a non-empty batch with at most one job processing, the aggregate
progress is `round(100 * (completedCount + activeJobProgress/100) / totalJobs)`;
starting a batch of `k` items yields `k` pending jobs at progress 0 with
aggregate progress 0; and the two-item scenario (item 1 completed, item 2 at
progress 50) evaluates to 75. -/
theorem overallProgress_formula :
    (∀ s : StoreState, s.jobs ≠ [] →
      (s.jobs.filter (fun j => j.status == .processing)).length ≤ 1 →
      overallProgress s =
        round ((100 : ℚ) * (completedCount s + specActiveJobProgress s / 100) /
          s.jobs.length)) ∧
    (∀ (items : List WorkItem) (s : StoreState),
      (startBatch items s).jobs.length = items.length ∧
      (∀ j ∈ (startBatch items s).jobs, j.status = .pending ∧ j.progress = 0) ∧
      overallProgress (startBatch items s) = 0) ∧
    overallProgress
      (updateJobProgress "2" 50 "Half done" 3
        (completeJob "1" 2
          (startBatch [⟨"1", "Test 1"⟩, ⟨"2", "Test 2"⟩] initialStore))) = 75 := by
  refine ⟨?_, ?_, ?_⟩
  · intro s hne hone
    have hlen : ¬ s.jobs.length = 0 := by simpa using hne
    have hcur : currentJob s =
        (s.jobs.filter (fun j => j.status == .processing)).head? :=
      find?_eq_head?_filter (fun j : Job => j.status == JobStatus.processing) s.jobs
    have hact : ((currentJob s).map Job.progress).getD 0 = specActiveJobProgress s := by
      rw [hcur, specActiveJobProgress]
      cases hfil : s.jobs.filter (fun j => j.status == .processing) with
      | nil => simp
      | cons j rest =>
        have hrest : rest = [] := by
          rw [hfil] at hone
          simpa using hone
        subst hrest
        simp
    simp only [overallProgress, if_neg hlen]
    rw [hact]
    have harg :
        (((completedCount s : ℚ) + specActiveJobProgress s / 100) /
            (s.jobs.length : ℚ)) * 100 =
          (100 : ℚ) * ((completedCount s : ℚ) + specActiveJobProgress s / 100) /
            (s.jobs.length : ℚ) := by
      ring
    rw [harg]
  · intro items s
    refine ⟨by simp [startBatch], ?_, ?_⟩
    · intro j hj
      simp only [startBatch, List.mem_map] at hj
      obtain ⟨it, _, rfl⟩ := hj
      exact ⟨rfl, rfl⟩
    · have hcc : completedCount (startBatch items s) = 0 := by
        have : (startBatch items s).jobs.filter (fun j => j.status == .completed)
            = [] := by
          rw [List.filter_eq_nil_iff]
          intro j hj
          simp only [startBatch, List.mem_map] at hj
          obtain ⟨it, _, rfl⟩ := hj
          simp
        simp [completedCount, this]
      have hcj : currentJob (startBatch items s) = none := by
        rw [currentJob, List.find?_eq_none]
        intro j hj
        simp only [startBatch, List.mem_map] at hj
        obtain ⟨it, _, rfl⟩ := hj
        simp
      rcases items with _ | ⟨it, rest⟩
      · simp [overallProgress, startBatch]
      · have hlen : ¬ (startBatch (it :: rest) s).jobs.length = 0 := by
          simp [startBatch]
        simp only [overallProgress, hcc, hcj, if_neg hlen]
        norm_num
  · simp [overallProgress, updateJobProgress, completeJob, startBatch,
      initialStore, updateFirst, completedCount, currentJob, mkHistoryItem]
    norm_num [round_eq]

/-- Witness for the conditional part of `overallProgress_formula`, at the
scenario state (two jobs, one completed, one processing at 50). -/
theorem overallProgress_formula_witness :
    overallProgress
      (updateJobProgress "2" 50 "Half done" 3
        (completeJob "1" 2
          (startBatch [⟨"1", "Test 1"⟩, ⟨"2", "Test 2"⟩] initialStore))) =
      round ((100 : ℚ) *
        (completedCount
            (updateJobProgress "2" 50 "Half done" 3
              (completeJob "1" 2
                (startBatch [⟨"1", "Test 1"⟩, ⟨"2", "Test 2"⟩] initialStore))) +
          specActiveJobProgress
            (updateJobProgress "2" 50 "Half done" 3
              (completeJob "1" 2
                (startBatch [⟨"1", "Test 1"⟩, ⟨"2", "Test 2"⟩] initialStore))) / 100) /
        (updateJobProgress "2" 50 "Half done" 3
          (completeJob "1" 2
            (startBatch [⟨"1", "Test 1"⟩, ⟨"2", "Test 2"⟩]
              initialStore))).jobs.length) :=
  overallProgress_formula.1
    (updateJobProgress "2" 50 "Half done" 3
      (completeJob "1" 2
        (startBatch [⟨"1", "Test 1"⟩, ⟨"2", "Test 2"⟩] initialStore)))
    (by
      simp [updateJobProgress, completeJob, startBatch, initialStore, updateFirst,
        mkHistoryItem])
    (by
      simp [updateJobProgress, completeJob, startBatch, initialStore, updateFirst,
        mkHistoryItem])

/-! ### Store-invariant machinery for the terminal-status claim -/

/-- Elements of a list with nodup image under `f` are determined by that
image. -/
theorem eq_of_mem_of_map_nodup {f : α → β} {l : List α}
    (hnd : (l.map f).Nodup) {a b : α} (ha : a ∈ l) (hb : b ∈ l)
    (hf : f a = f b) : a = b := by
  induction l with
  | nil => cases ha
  | cons x rest ih =>
    simp only [List.map_cons, List.nodup_cons] at hnd
    rcases List.mem_cons.1 ha with rfl | ha2
    · rcases List.mem_cons.1 hb with rfl | hb2
      · rfl
      · exact absurd (hf ▸ List.mem_map_of_mem f hb2) hnd.1
    · rcases List.mem_cons.1 hb with rfl | hb2
      · exact absurd (hf ▸ List.mem_map_of_mem f ha2) hnd.1
      · exact ih hnd.2 ha2 hb2

/-- `updateFirst` keeps the job ids in place when the update preserves the
id of the element it touches. -/
theorem updateFirst_map_id (p : Job → Bool) (f : Job → Job) (l : List Job)
    (h : ∀ a, p a = true → (f a).id = a.id) :
    (updateFirst p f l).map Job.id = l.map Job.id := by
  induction l with
  | nil => rfl
  | cons a rest ih =>
    by_cases hp : p a = true
    · simp [updateFirst, hp, h a hp]
    · simp [updateFirst, hp, ih]

/-- Any element of `updateFirst p f l` is an untouched element of `l` or the
image of an element satisfying `p`. -/
theorem mem_updateFirst {p : Job → Bool} {f : Job → Job} {l : List Job} {x : Job}
    (hx : x ∈ updateFirst p f l) :
    x ∈ l ∨ ∃ a ∈ l, p a = true ∧ x = f a := by
  induction l with
  | nil => cases hx
  | cons a rest ih =>
    by_cases hp : p a = true
    · rw [updateFirst, if_pos hp] at hx
      rcases List.mem_cons.1 hx with rfl | hx2
      · exact Or.inr ⟨a, List.mem_cons_self a rest, hp, rfl⟩
      · exact Or.inl (List.mem_cons_of_mem a hx2)
    · rw [updateFirst, if_neg hp] at hx
      rcases List.mem_cons.1 hx with rfl | hx2
      · exact Or.inl (List.mem_cons_self x rest)
      · rcases ih hx2 with h | ⟨b, hb, hpb, rfl⟩
        · exact Or.inl (List.mem_cons_of_mem a h)
        · exact Or.inr ⟨b, List.mem_cons_of_mem a hb, hpb, rfl⟩

/-- With unique ids, updating the job with a given id leaves every element
either untouched with a different id, or replaced. -/
theorem mem_updateFirst_by_id {l : List Job} {id : String} {j2 : Job} {x : Job}
    (hnd : (l.map Job.id).Nodup)
    (hx : x ∈ updateFirst (fun a => a.id == id) (fun _ => j2) l) :
    (x ∈ l ∧ (x.id == id) = false) ∨ x = j2 := by
  induction l with
  | nil => cases hx
  | cons a rest ih =>
    simp only [List.map_cons, List.nodup_cons] at hnd
    by_cases hp : (a.id == id) = true
    · rw [updateFirst, if_pos hp] at hx
      rcases List.mem_cons.1 hx with rfl | hx2
      · exact Or.inr rfl
      · refine Or.inl ⟨List.mem_cons_of_mem a hx2, ?_⟩
        have hxid : x.id ∈ rest.map Job.id := List.mem_map_of_mem Job.id hx2
        have : x.id ≠ a.id := fun he => hnd.1 (he ▸ hxid)
        have haid : a.id = id := by simpa using hp
        simp [haid ▸ this]
    · rw [updateFirst, if_neg hp] at hx
      rcases List.mem_cons.1 hx with rfl | hx2
      · exact Or.inl ⟨List.mem_cons_self x rest, by simpa using hp⟩
      · rcases ih hnd.2 hx2 with ⟨h1, h2⟩ | h
        · exact Or.inl ⟨List.mem_cons_of_mem a h1, h2⟩
        · exact Or.inr h

/-- Untouched elements stay in the list. -/
theorem mem_updateFirst_of_not_p {p : Job → Bool} (f : Job → Job) {l : List Job}
    {x : Job} (hx : x ∈ l) (hp : p x = false) : x ∈ updateFirst p f l := by
  induction l with
  | nil => cases hx
  | cons a rest ih =>
    rcases List.mem_cons.1 hx with rfl | hx2
    · rw [updateFirst, if_neg (by simp [hp])]
      exact List.mem_cons_self x _
    · by_cases hpa : p a = true
      · rw [updateFirst, if_pos hpa]
        exact List.mem_cons_of_mem _ hx2
      · rw [updateFirst, if_neg hpa]
        exact List.mem_cons_of_mem a (ih hx2)

/-- Counting a freshly unshifted entry. -/
theorem countHist_cons (e : HistoryItem) (h : List HistoryItem) (id : String) :
    countHist (e :: h) id =
      (if e.id == id then 1 else 0) + countHist h id := by
  by_cases he : (e.id == id) = true <;>
    simp [countHist, List.filter_cons, he, Nat.add_comm]

/-- Counting across concatenation. -/
theorem countHist_append (h1 h2 : List HistoryItem) (id : String) :
    countHist (h1 ++ h2) id = countHist h1 id + countHist h2 id := by
  simp [countHist, List.filter_append]

/-- Counting is invariant under reversal. -/
theorem countHist_reverse (h : List HistoryItem) (id : String) :
    countHist h.reverse id = countHist h id := by
  simp [countHist, List.filter_reverse]

/-- A status is non-terminal exactly when it is pending or processing. -/
theorem not_terminal_iff (st : JobStatus) :
    st.isTerminal = false ↔ (st == .pending || st == .processing) = true := by
  cases st <;> simp [JobStatus.isTerminal]

/-- With unique ids, filtering by a member's id isolates that member. -/
theorem filter_id_eq_of_nodup {l : List Job} (hnd : (l.map Job.id).Nodup)
    {a : Job} (ha : a ∈ l) : l.filter (fun j => j.id == a.id) = [a] := by
  induction l with
  | nil => cases ha
  | cons x rest ih =>
    simp only [List.map_cons, List.nodup_cons] at hnd
    rcases List.mem_cons.1 ha with rfl | ha2
    · rw [List.filter_cons_of_pos (by simp)]
      have : rest.filter (fun j => j.id == a.id) = [] := by
        rw [List.filter_eq_nil_iff]
        intro j hj
        simp only [beq_iff_eq]
        exact fun he => hnd.1 (he ▸ List.mem_map_of_mem Job.id hj)
      rw [this]
    · have hne : x.id ≠ a.id :=
        fun he => hnd.1 (he ▸ List.mem_map_of_mem Job.id ha2)
      rw [List.filter_cons_of_neg (by simp [hne])]
      exact ih hnd.2 ha2

/-- `updateJobProgress` preserves the store invariant. -/
theorem storeInv_update (s : StoreState) (id : String) (pr : ℚ) (stg : String)
    (now : Nat) (hI : StoreInv s) :
    StoreInv (updateJobProgress id pr stg now s) := by
  obtain ⟨hnd, hcnt⟩ := hI
  refine ⟨?_, ?_⟩
  · simp only [updateJobProgress]
    rw [updateFirst_map_id]
    · exact hnd
    · intro a _
      by_cases hp : (a.status == JobStatus.pending) = true <;> simp [hp]
  · intro x hx
    simp only [updateJobProgress] at hx ⊢
    rcases mem_updateFirst hx with h | ⟨a, ha, _, rfl⟩
    · exact hcnt x h
    · have hthis := hcnt a ha
      by_cases hp : (a.status == JobStatus.pending) = true
      · have hap : a.status = JobStatus.pending := by simpa using hp
        simpa [hp, hap, JobStatus.isTerminal] using hthis
      · simpa [hp] using hthis

/-- `completeJob` preserves the store invariant when the targeted job is not
already terminal. -/
theorem storeInv_complete (s : StoreState) (id : String) (now : Nat)
    (hI : StoreInv s)
    (hok : ∀ j ∈ s.jobs, j.id = id → j.status.isTerminal = false) :
    StoreInv (completeJob id now s) := by
  obtain ⟨hnd, hcnt⟩ := hI
  cases hf : s.jobs.find? (fun j => j.id == id) with
  | none => simpa [completeJob, hf] using And.intro hnd hcnt
  | some j =>
    have hjmem : j ∈ s.jobs := List.mem_of_find?_eq_some hf
    have hjid : j.id = id := by simpa using List.find?_some hf
    have hjterm : j.status.isTerminal = false := hok j hjmem hjid
    have hjcnt : countHist s.history j.id = 0 := by
      simpa [hjterm] using hcnt j hjmem
    refine ⟨?_, ?_⟩
    · simp only [completeJob, hf]
      rw [updateFirst_map_id]
      · exact hnd
      · intro a hpa
        have : a.id = id := by simpa using hpa
        simp [this, hjid]
    · intro x hx
      simp only [completeJob, hf] at hx ⊢
      rcases mem_updateFirst_by_id hnd hx with ⟨hxl, hxid⟩ | rfl
      · have hxid2 : x.id ≠ id := by simpa using hxid
        rw [countHist_cons]
        simp only [mkHistoryItem, hjid]
        rw [if_neg (by simp [Ne.symm hxid2])]
        simpa using hcnt x hxl
      · rw [countHist_cons]
        simp [mkHistoryItem, JobStatus.isTerminal, hjcnt]

/-- `failJob` preserves the store invariant when the targeted job is not
already terminal. -/
theorem storeInv_fail (s : StoreState) (id err : String) (now : Nat)
    (hI : StoreInv s)
    (hok : ∀ j ∈ s.jobs, j.id = id → j.status.isTerminal = false) :
    StoreInv (failJob id err now s) := by
  obtain ⟨hnd, hcnt⟩ := hI
  cases hf : s.jobs.find? (fun j => j.id == id) with
  | none => simpa [failJob, hf] using And.intro hnd hcnt
  | some j =>
    have hjmem : j ∈ s.jobs := List.mem_of_find?_eq_some hf
    have hjid : j.id = id := by simpa using List.find?_some hf
    have hjterm : j.status.isTerminal = false := hok j hjmem hjid
    have hjcnt : countHist s.history j.id = 0 := by
      simpa [hjterm] using hcnt j hjmem
    refine ⟨?_, ?_⟩
    · simp only [failJob, hf]
      rw [updateFirst_map_id]
      · exact hnd
      · intro a hpa
        have : a.id = id := by simpa using hpa
        simp [this, hjid]
    · intro x hx
      simp only [failJob, hf] at hx ⊢
      rcases mem_updateFirst_by_id hnd hx with ⟨hxl, hxid⟩ | rfl
      · have hxid2 : x.id ≠ id := by simpa using hxid
        rw [countHist_cons]
        simp only [mkHistoryItem, hjid]
        rw [if_neg (by simp [Ne.symm hxid2])]
        simpa using hcnt x hxl
      · rw [countHist_cons]
        simp [mkHistoryItem, JobStatus.isTerminal, hjcnt]

/-- Counting the cancelled entries produced for a job id: one per affected
job carrying that id. -/
theorem countHist_cancelEntries (l : List Job) (now : Nat) (id0 : String) :
    countHist (l.map (fun j => mkHistoryItem j .cancelled none now)) id0 =
      (l.filter (fun j => j.id == id0)).length := by
  induction l with
  | nil => rfl
  | cons a rest ih =>
    rw [List.map_cons, countHist_cons]
    have hidm : (mkHistoryItem a .cancelled none now).id = a.id := rfl
    by_cases ha : (a.id == id0) = true <;>
      simp [hidm, ha, ih, List.filter_cons, Nat.add_comm]

/-- `cancel` preserves the store invariant (no admissibility needed: it only
touches non-terminal jobs). -/
theorem storeInv_cancel (s : StoreState) (now : Nat) (hI : StoreInv s) :
    StoreInv (cancel now s) := by
  obtain ⟨hnd, hcnt⟩ := hI
  cases hc : s.abortController with
  | none => simpa [cancel, hc] using And.intro hnd hcnt
  | some b =>
    have hjobs : (cancel now s).jobs = s.jobs.map (cancelJobUpdate now) := by
      simp [cancel, hc, cancelLoop_spec]
    have hhist : (cancel now s).history =
        ((s.jobs.filter
            (fun j => j.status == .pending || j.status == .processing)).map
          (fun j => mkHistoryItem j .cancelled none now)).reverse ++ s.history := by
      simp [cancel, hc, cancelLoop_spec]
    have hid : ∀ a, (cancelJobUpdate now a).id = a.id := by
      intro a
      by_cases h : (a.status == JobStatus.pending ||
          a.status == JobStatus.processing) = true <;>
        simp [cancelJobUpdate, h]
    refine ⟨?_, ?_⟩
    · rw [hjobs, List.map_map]
      have : Job.id ∘ cancelJobUpdate now = Job.id := funext fun a => hid a
      rw [this]
      exact hnd
    · intro x hx
      rw [hjobs] at hx
      rcases List.mem_map.1 hx with ⟨a, ha, rfl⟩
      rw [hhist, countHist_append, countHist_reverse, countHist_cancelEntries,
        hid a]
      have hfa : (s.jobs.filter
            (fun j => j.status == .pending || j.status == .processing)).filter
          (fun j => j.id == a.id) =
          (s.jobs.filter (fun j => j.id == a.id)).filter
            (fun j => j.status == .pending || j.status == .processing) := by
        simp only [List.filter_filter]
        exact List.filter_congr fun j _ => by rw [Bool.and_comm]
      rw [hfa, filter_id_eq_of_nodup hnd ha]
      by_cases haff : (a.status == JobStatus.pending ||
          a.status == JobStatus.processing) = true
      · have h0 : countHist s.history a.id = 0 := by
          have := hcnt a ha
          rw [(not_terminal_iff a.status).2 haff] at this
          simpa using this
        simp [cancelJobUpdate, haff, List.filter_cons, JobStatus.isTerminal, h0]
      · have hterm : a.status.isTerminal = true := by
          cases hcase : a.status.isTerminal
          · exact absurd ((not_terminal_iff a.status).1 hcase) haff
          · rfl
        have h1 : countHist s.history a.id = 1 := by
          simpa [hterm] using hcnt a ha
        simp [cancelJobUpdate, haff, List.filter_cons, hterm, h1]

/-- `finish` preserves the store invariant. -/
theorem storeInv_finish (s : StoreState) (hI : StoreInv s) :
    StoreInv (finish s) := hI

/-- `reset` preserves the store invariant. -/
theorem storeInv_reset (s : StoreState) (_hI : StoreInv s) :
    StoreInv (reset s) := by
  refine ⟨by simp [reset], ?_⟩
  intro j hj
  simp [reset] at hj

/-- One admissible action preserves the store invariant. -/
theorem storeInv_applyOp (s : StoreState) (op : StoreOp) (hI : StoreInv s)
    (hok : okOp s op) : StoreInv (applyOp op s) := by
  cases op with
  | update id pr stg now => exact storeInv_update s id pr stg now hI
  | complete id now => exact storeInv_complete s id now hI hok
  | fail id err now => exact storeInv_fail s id err now hI hok
  | cancel now => exact storeInv_cancel s now hI
  | finish => exact storeInv_finish s hI
  | reset => exact storeInv_reset s hI

/-- One admissible action leaves a settled terminal job id settled: its
history count stays 1 and any job carrying the id keeps its status. -/
theorem termStable_applyOp (s : StoreState) (op : StoreOp) (id : String)
    (st : JobStatus) (hst : st.isTerminal = true) (hI : StoreInv s)
    (hok : okOp s op) (hTS : TermStable id st s) :
    TermStable id st (applyOp op s) := by
  obtain ⟨hnd, _⟩ := hI
  obtain ⟨hc1, hc2⟩ := hTS
  cases op with
  | update opId pr stg now =>
    refine ⟨hc1, ?_⟩
    intro x hx hxid
    simp only [applyOp, updateJobProgress] at hx
    rcases mem_updateFirst hx with h | ⟨a, ha, _, rfl⟩
    · exact hc2 x h hxid
    · by_cases hp : (a.status == JobStatus.pending) = true
      · have haid : a.id = id := by simpa [hp] using hxid
        have hast : a.status = st := hc2 a ha haid
        have : st = JobStatus.pending := hast ▸ (by simpa using hp)
        rw [this] at hst
        exact absurd hst (by simp [JobStatus.isTerminal])
      · have haid : a.id = id := by simpa [hp] using hxid
        have hast : a.status = st := hc2 a ha haid
        simpa [hp] using hast
  | complete opId now =>
    cases hf : s.jobs.find? (fun j => j.id == opId) with
    | none => exact ⟨by simpa [applyOp, completeJob, hf] using hc1,
        by simpa [applyOp, completeJob, hf] using hc2⟩
    | some j =>
      have hjmem : j ∈ s.jobs := List.mem_of_find?_eq_some hf
      have hjid : j.id = opId := by simpa using List.find?_some hf
      have hjterm : j.status.isTerminal = false := hok j hjmem hjid
      have hopid : opId ≠ id := by
        intro he
        have := hc2 j hjmem (he ▸ hjid)
        rw [this] at hjterm
        rw [hjterm] at hst
        cases hst
      refine ⟨?_, ?_⟩
      · simp only [applyOp, completeJob, hf]
        rw [countHist_cons]
        have : (mkHistoryItem j .completed none now).id = j.id := rfl
        rw [this, hjid, if_neg (by simp [hopid])]
        simpa using hc1
      · intro x hx hxid
        simp only [applyOp, completeJob, hf] at hx
        rcases mem_updateFirst_by_id hnd hx with ⟨hxl, _⟩ | rfl
        · exact hc2 x hxl hxid
        · exact absurd (hxid ▸ hjid.symm : opId = id) hopid
  | fail opId err now =>
    cases hf : s.jobs.find? (fun j => j.id == opId) with
    | none => exact ⟨by simpa [applyOp, failJob, hf] using hc1,
        by simpa [applyOp, failJob, hf] using hc2⟩
    | some j =>
      have hjmem : j ∈ s.jobs := List.mem_of_find?_eq_some hf
      have hjid : j.id = opId := by simpa using List.find?_some hf
      have hjterm : j.status.isTerminal = false := hok j hjmem hjid
      have hopid : opId ≠ id := by
        intro he
        have := hc2 j hjmem (he ▸ hjid)
        rw [this] at hjterm
        rw [hjterm] at hst
        cases hst
      refine ⟨?_, ?_⟩
      · simp only [applyOp, failJob, hf]
        rw [countHist_cons]
        have : (mkHistoryItem j .failed (some err) now).id = j.id := rfl
        rw [this, hjid, if_neg (by simp [hopid])]
        simpa using hc1
      · intro x hx hxid
        simp only [applyOp, failJob, hf] at hx
        rcases mem_updateFirst_by_id hnd hx with ⟨hxl, _⟩ | rfl
        · exact hc2 x hxl hxid
        · exact absurd (hxid ▸ hjid.symm : opId = id) hopid
  | cancel now =>
    cases hc : s.abortController with
    | none => exact ⟨by simpa [applyOp, cancel, hc] using hc1,
        by simpa [applyOp, cancel, hc] using hc2⟩
    | some b =>
      have hjobs : (cancel now s).jobs = s.jobs.map (cancelJobUpdate now) := by
        simp [cancel, hc, cancelLoop_spec]
      have hhist : (cancel now s).history =
          ((s.jobs.filter
              (fun j => j.status == .pending || j.status == .processing)).map
            (fun j => mkHistoryItem j .cancelled none now)).reverse ++ s.history := by
        simp [cancel, hc, cancelLoop_spec]
      have hnone : (s.jobs.filter
          (fun j => j.status == .pending || j.status == .processing)).filter
            (fun j => j.id == id) = [] := by
        rw [List.filter_eq_nil_iff]
        intro j hj
        have hjm := List.mem_of_mem_filter hj
        have hjaff := List.of_mem_filter hj
        simp only [beq_iff_eq]
        intro he
        have := hc2 j hjm he
        rw [this] at hjaff
        have := (not_terminal_iff st).2 hjaff
        rw [this] at hst
        cases hst
      refine ⟨?_, ?_⟩
      · show countHist (cancel now s).history id = 1
        rw [hhist, countHist_append, countHist_reverse, countHist_cancelEntries]
        have hz : ((s.jobs.filter
            (fun j => j.status == .pending || j.status == .processing)).filter
              (fun j => j.id == id)).length = 0 := by rw [hnone]; rfl
        rw [hz]
        simpa using hc1
      · intro x hx hxid
        have hx2 : x ∈ (cancel now s).jobs := hx
        rw [hjobs] at hx2
        rcases List.mem_map.1 hx2 with ⟨a, ha, rfl⟩
        by_cases haff : (a.status == JobStatus.pending ||
            a.status == JobStatus.processing) = true
        · have haid : a.id = id := by
            simpa [cancelJobUpdate, haff] using hxid
          have := hc2 a ha haid
          rw [this] at haff
          have := (not_terminal_iff st).2 haff
          rw [this] at hst
          cases hst
        · have haid : a.id = id := by
            simpa [cancelJobUpdate, haff] using hxid
          have := hc2 a ha haid
          simpa [cancelJobUpdate, haff] using this
  | finish => exact ⟨hc1, hc2⟩
  | reset =>
    refine ⟨hc1, ?_⟩
    intro x hx
    simp [applyOp, reset] at hx

/-- Admissible sequences preserve the store invariant. -/
theorem storeInv_applyOps (ops : List StoreOp) (s : StoreState)
    (hI : StoreInv s) (hok : okOps s ops) : StoreInv (applyOps ops s) := by
  induction ops generalizing s with
  | nil => exact hI
  | cons op rest ih => exact ih _ (storeInv_applyOp s op hI hok.1) hok.2

/-- Admissible sequences leave a settled terminal id settled. -/
theorem termStable_applyOps (ops : List StoreOp) (s : StoreState) (id : String)
    (st : JobStatus) (hst : st.isTerminal = true) (hI : StoreInv s)
    (hok : okOps s ops) (hTS : TermStable id st s) :
    TermStable id st (applyOps ops s) := by
  induction ops generalizing s with
  | nil => exact hTS
  | cons op rest ih =>
    exact ih _ (storeInv_applyOp s op hI hok.1) hok.2
      (termStable_applyOp s op id st hst hI hok.1 hTS)

/-- Splitting admissibility of a concatenated sequence. -/
theorem okOps_append_split (s : StoreState) (l1 l2 : List StoreOp)
    (h : okOps s (l1 ++ l2)) : okOps s l1 ∧ okOps (applyOps l1 s) l2 := by
  induction l1 generalizing s with
  | nil => exact ⟨trivial, h⟩
  | cons op rest ih =>
    obtain ⟨h1, h2⟩ := h
    obtain ⟨h3, h4⟩ := ih (applyOp op s) h2
    exact ⟨⟨h1, h3⟩, h4⟩

/-- `startBatch` on the pristine store satisfies the invariant whenever the
item ids are distinct. -/
theorem storeInv_startBatch (items : List WorkItem)
    (hnd : (items.map WorkItem.id).Nodup) :
    StoreInv (startBatch items initialStore) := by
  refine ⟨?_, ?_⟩
  · have hcomp : (startBatch items initialStore).jobs.map Job.id =
        items.map WorkItem.id := by
      simp only [startBatch, List.map_map]
      rfl
    rw [hcomp]
    exact hnd
  · intro j hj
    simp only [startBatch, List.mem_map] at hj
    obtain ⟨it, _, rfl⟩ := hj
    simp [countHist, startBatch, initialStore, JobStatus.isTerminal]

/-- C2 (amended): within a single batch started on distinct item ids, for
every admissible sequence of store actions (one that never applies
`completeJob`/`failJob` to a job already terminal), once a job has reached a
terminal status it has exactly one history entry, no later admissible action
adds another entry for it, and no later admissible action changes its
status. -/
theorem jobStore_terminal_once (items : List WorkItem)
    (hnd : (items.map WorkItem.id).Nodup) (ops1 ops2 : List StoreOp)
    (hok : okOps (startBatch items initialStore) (ops1 ++ ops2)) :
    ∀ j ∈ (applyOps ops1 (startBatch items initialStore)).jobs,
      j.status.isTerminal = true →
      countHist (applyOps ops1 (startBatch items initialStore)).history j.id = 1 ∧
      countHist (applyOps ops2 (applyOps ops1 (startBatch items
        initialStore))).history j.id = 1 ∧
      ∀ j2 ∈ (applyOps ops2 (applyOps ops1 (startBatch items initialStore))).jobs,
        j2.id = j.id → j2.status = j.status := by
  intro j hj hterm
  have h0 := storeInv_startBatch items hnd
  obtain ⟨hok1, hok2⟩ := okOps_append_split (startBatch items initialStore)
    ops1 ops2 hok
  have h1 := storeInv_applyOps ops1 _ h0 hok1
  have hcnt1 : countHist (applyOps ops1 (startBatch items
      initialStore)).history j.id = 1 := by
    simpa [hterm] using h1.2 j hj
  have hTS : TermStable j.id j.status
      (applyOps ops1 (startBatch items initialStore)) := by
    refine ⟨hcnt1, fun j2 hj2 he => ?_⟩
    rw [eq_of_mem_of_map_nodup h1.1 hj2 hj he]
  have hTS2 := termStable_applyOps ops2 _ j.id j.status hterm h1 hok2 hTS
  exact ⟨hcnt1, hTS2.1, hTS2.2⟩

/-- C2 counterexample: the store does not guard its terminal transitions.
Completing job 1 and then failing it moves the job from the terminal status
`completed` to `failed` and appends a second history entry for it. -/
theorem jobStore_terminal_cex :
    ((applyOps [.complete "1" 2] (startBatch [⟨"1", "Test"⟩] initialStore)).jobs.map
      Job.status = [.completed]) ∧
    ((applyOps [.complete "1" 2, .fail "1" "boom" 3]
        (startBatch [⟨"1", "Test"⟩] initialStore)).jobs.map Job.status
      = [.failed]) ∧
    countHist (applyOps [.complete "1" 2, .fail "1" "boom" 3]
        (startBatch [⟨"1", "Test"⟩] initialStore)).history "1" = 2 :=
  ⟨rfl, rfl, rfl⟩

/-- Witness for `jobStore_terminal_once` on a concrete two-item batch:
complete item 1, then fail item 2 and finish. -/
theorem jobStore_terminal_once_witness :
    countHist (applyOps [.complete "1" 2]
        (startBatch [⟨"1", "A"⟩, ⟨"2", "B"⟩] initialStore)).history "1" = 1 ∧
    countHist (applyOps [.fail "2" "e" 3, .finish]
        (applyOps [.complete "1" 2]
          (startBatch [⟨"1", "A"⟩, ⟨"2", "B"⟩] initialStore))).history "1" = 1 ∧
    ∀ j2 ∈ (applyOps [.fail "2" "e" 3, .finish]
        (applyOps [.complete "1" 2]
          (startBatch [⟨"1", "A"⟩, ⟨"2", "B"⟩] initialStore))).jobs,
      j2.id = "1" → j2.status = .completed :=
  jobStore_terminal_once [⟨"1", "A"⟩, ⟨"2", "B"⟩] (by decide)
    [.complete "1" 2] [.fail "2" "e" 3, .finish]
    (by
      refine ⟨?_, ?_, trivial, trivial⟩ <;>
        · intro j hj
          fin_cases hj <;> simp [JobStatus.isTerminal])
    ⟨"1", "A", .completed, 100, "Done", none, none, some 2⟩
    (by
      show _ ∈ (applyOps [StoreOp.complete "1" 2]
        (startBatch [⟨"1", "A"⟩, ⟨"2", "B"⟩] initialStore)).jobs
      exact List.mem_cons_self _ _)
    rfl

/-- C1 counterexample: the pipeline does not route its remote stages through
the retry executor.  With an operation that fails once with a retryable
network error and would succeed on a second call, `process` yields no result
and rejects with that error after exactly one `removeBackground` invocation
and no retry — where the claim promises the item result after one retry. -/
theorem process_no_retry_cex :
    isRetryableError netError = true ∧
    (processRun failOnceEnv [⟨"1", "Img"⟩] false).results = [] ∧
    (processRun failOnceEnv [⟨"1", "Img"⟩] false).error = some netError ∧
    (processRun failOnceEnv [⟨"1", "Img"⟩] false).rbCalls = 1 ∧
    (processRun failOnceEnv [⟨"1", "Img"⟩] false).dmCalls = 0 :=
  ⟨by decide, rfl, rfl, rfl, rfl⟩

/-- C1 (amended): the pipeline invokes `removeBackground` and `downloadMask`
directly, passing the batch's cancellation signal to each call but without
the retry executor: a first remote call failing (retryably or not) rejects
the batch after exactly one invocation; an already-signalled token aborts
before any work; and the claimed retry behaviour (options
`maxAttempts:3, baseDelay:1, jitter:false`, operation fails once retryably
then succeeds → result after exactly one retry wait of 1 ms with `onRetry`
called once at attempt 1) holds of `withRetry` itself. -/
theorem process_direct_remote_calls :
    (∀ (env : PipeEnv) (img : ImageInfo) (data : Bytes) (e : JsError),
      env.exportImage img.id = .ok data →
      env.removeBackground 0 data (img.name ++ ".png") false = .error e →
      (processRun env [img] false).results = [] ∧
      (processRun env [img] false).error = some e ∧
      (processRun env [img] false).rbCalls = 1 ∧
      (processRun env [img] false).dmCalls = 0) ∧
    (∀ (env : PipeEnv) (img : ImageInfo) (rest : List ImageInfo),
      (processRun env (img :: rest) true).results = [] ∧
      (processRun env (img :: rest) true).error = some JsError.abortError ∧
      (processRun env (img :: rest) true).rbCalls = 0 ∧
      (processRun env (img :: rest) true).dmCalls = 0) ∧
    (∀ (α : Type) (fn : Nat → Except JsError α) (v : α) (e : JsError),
      fn 0 = .error e → (∀ i, 1 ≤ i → fn i = .ok v) →
      isRetryableError e = true →
      withRetryRun fn { maxAttempts := 3, baseDelay := 1, jitter := false } =
        ⟨.ok v, 2, [(1, 1)], [1]⟩) := by
  refine ⟨?_, ?_, ?_⟩
  · intro env img data e h1 h2
    refine ⟨?_, ?_, ?_, ?_⟩ <;>
      simp [processRun, processGo, h1, h2]
  · intro env img rest
    refine ⟨?_, ?_, ?_, ?_⟩ <;> rfl
  · intro α fn v e h0 h1 hre
    have h1' : fn 1 = .ok v := h1 1 (by norm_num)
    simp [withRetryRun, withRetryGo, h0, h1', hre, calculateDelay, min_def]

/-- Witness for `process_direct_remote_calls` at the fail-once environment
and the fail-once operation. -/
theorem process_direct_remote_calls_witness :
    ((processRun failOnceEnv [⟨"1", "Img"⟩] false).results = [] ∧
      (processRun failOnceEnv [⟨"1", "Img"⟩] false).error = some netError ∧
      (processRun failOnceEnv [⟨"1", "Img"⟩] false).rbCalls = 1 ∧
      (processRun failOnceEnv [⟨"1", "Img"⟩] false).dmCalls = 0) ∧
    withRetryRun (α := Nat)
      (fun calls => if calls == 0 then .error netError else .ok 7)
      { maxAttempts := 3, baseDelay := 1, jitter := false } =
      ⟨.ok 7, 2, [(1, 1)], [1]⟩ :=
  ⟨process_direct_remote_calls.1 failOnceEnv ⟨"1", "Img"⟩ [1, 2, 3] netError
      rfl rfl,
    process_direct_remote_calls.2.2 Nat
      (fun calls => if calls == 0 then .error netError else .ok 7) 7 netError
      rfl
      (fun i hi => by
        have : (i == 0) = false := by
          simp only [beq_eq_false_iff_ne, ne_eq]
          omega
        simp [this])
      (by decide)⟩

end Maskr


